import Mathlib

set_option maxRecDepth 100000

/-!
Verification of the yard_design repository's core pipeline
(src/main.py and src/data.py) against its natural-language specification.

Shallow embedding conventions:
* A pandas cell is `Option String`: `none` models NaN/missing, `some s`
  models the cell text (`str(val)` is applied by the code before use).
* Python dicts keyed by strings are modelled as total functions
  `String → Nat` defaulting to 0; the code only ever reads a key through
  a `dict.get(k, 0)`-style access or after an `in` test, so a key that is
  present with value 0 and an absent key are indistinguishable.
* Fallible Python code (expressions that can raise) returns
  `Except Unit _`; `.error ()` marks a raised exception.
* Character classes are ASCII, matching the data the program consumes.
* Python floats are modelled exactly (truncation of the written decimal
  toward zero); float rounding/overflow at extreme magnitudes is outside
  the model.
* All string scans are written as structural recursion over `List Char`
  (`String.data`) so concrete runs reduce in the kernel.
-/

/-! ## String utilities -/

/-- Decimal value of a list of ASCII digit characters (Python `int`). -/
def natOfDigits (l : List Char) : Nat :=
  l.foldl (fun n c => 10 * n + (c.toNat - 48)) 0

/-- Python `str.isdigit()`: nonempty and every character a digit. -/
def isDigitStr (s : String) : Bool :=
  !s.data.isEmpty && s.data.all Char.isDigit

/-- Python `int(s)` on a string that passed `isdigit`. -/
def strToNat (s : String) : Nat :=
  natOfDigits s.data

/-- `charsStartWith needle l`: `l` begins with `needle`. -/
def charsStartWith : List Char → List Char → Bool
  | [], _ => true
  | _ :: _, [] => false
  | a :: as, b :: bs => a == b && charsStartWith as bs

/-- `needle` occurs as a contiguous run inside the second list. -/
def charsHave (needle : List Char) : List Char → Bool
  | [] => needle.isEmpty
  | c :: rest => charsStartWith needle (c :: rest) || charsHave needle rest

/-- Python's `needle in hay` substring test. -/
def strContains (hay needle : String) : Bool :=
  charsHave needle.data hay.data

/-- `hay` starts with `needle` (Python `str.startswith`). -/
def strStarts (hay needle : String) : Bool :=
  charsStartWith needle.data hay.data

/-- Python `str.strip()`: drop whitespace at both ends. -/
def trimChars (cs : List Char) : List Char :=
  ((cs.dropWhile Char.isWhitespace).reverse.dropWhile Char.isWhitespace).reverse

/-- `strip` on a string. -/
def stripStr (s : String) : String :=
  String.mk (trimChars s.data)

/-- Whitespace-splitting scan: `cur` holds the current token reversed. -/
def splitWsAux : List Char → List Char → List String
  | [], cur => if cur.isEmpty then [] else [String.mk cur.reverse]
  | c :: rest, cur =>
    if c.isWhitespace then
      if cur.isEmpty then splitWsAux rest []
      else String.mk cur.reverse :: splitWsAux rest []
    else splitWsAux rest (c :: cur)

/-- Python `str.split()`: split on whitespace runs, no empty pieces. -/
def splitWs (s : String) : List String :=
  splitWsAux s.data []

/-- Comma-splitting scan (Python `str.split(',')`, empties kept). -/
def splitCommaAux : List Char → List Char → List String
  | [], cur => [String.mk cur.reverse]
  | c :: rest, cur =>
    if c = ',' then String.mk cur.reverse :: splitCommaAux rest []
    else splitCommaAux rest (c :: cur)

/-- Python `str.split(',')`. -/
def splitComma (s : String) : List String :=
  splitCommaAux s.data []

/-! ## Block/Spare Resolver: `parse_spare_blocks` (src/main.py lines 9-32)

The dict update `blocks[block_name] = blocks.get(block_name, 0) + count`
becomes `bumpCount`.
-/

/-- One dict update accumulating `c` onto key `b`. -/
def bumpCount (m : String → Nat) (b : String) (c : Nat) : String → Nat :=
  fun k => if k = b then m k + c else m k

/-- The `while i < len(parts)` scan of `parse_spare_blocks`: an integer
token binds to the immediately following token; a lone trailing integer
is dropped (`i += 1` runs off the end); a non-integer token is skipped. -/
def parseSpareGo : List String → (String → Nat) → (String → Nat)
  | [], m => m
  | t :: rest, m =>
    if isDigitStr t then
      match rest with
      | [] => m
      | b :: rest2 => parseSpareGo rest2 (bumpCount m b (strToNat t))
    else parseSpareGo rest m

/-- `parse_spare_blocks`: `none` (NaN) or empty cells give the empty dict. -/
def parseSpareBlocks (cell : Option String) : String → Nat :=
  match cell with
  | none => fun _ => 0
  | some s => if s = "" then fun _ => 0 else parseSpareGo (splitWs s) (fun _ => 0)

/-- Contribution of one spare cell to the count for target list `blocks`
(the `for block in blocks: if block in spare_blocks` loop of
`calculate_car_arriving`, src/main.py lines 135-137). -/
def spareCount (blocks : List String) (cell : Option String) : Nat :=
  (blocks.map (parseSpareBlocks cell)).sum

/-! ## `parse_time_from_column` (src/main.py lines 35-48)

`re.match(r'(\d+):(\d+)', s.strip())`: a nonempty digit run, a colon,
then at least one digit; the hour is the first digit run's value.
-/

/-- Parse an hour from a time cell's text. -/
def parseTimeStr (s : String) : Option Nat :=
  let cs := trimChars s.data
  let ds := cs.takeWhile Char.isDigit
  match cs.dropWhile Char.isDigit with
  | ':' :: rest =>
    if !ds.isEmpty && !(rest.takeWhile Char.isDigit).isEmpty then
      some (natOfDigits ds)
    else none
  | _ => none

/-- `parse_time_from_column` on a cell (`pd.isna` gives `None`). -/
def parseTimeOpt (cell : Option String) : Option Nat :=
  match cell with
  | none => none
  | some s => parseTimeStr s

/-! ## `get_blocks_from_departure` (src/main.py lines 51-60) -/

/-- Split a departure-table `Bocks` cell on commas and strip each piece. -/
def getBlocksFromDeparture (cell : Option String) : List String :=
  match cell with
  | none => []
  | some s => (splitComma s).map stripStr

/-! ## Yard-plan table model (§3 YardPlanRow)

A row is its cell contents indexed by column name; the table carries the
column list (`yard_plan.columns`).  The `Time` column is read through
`row.get('Time', '')` and `row[col]`, both modelled by `cells`.
-/

/-- One yard-plan row: cell text by column name (`none` = NaN/missing). -/
structure YardRow where
  cells : String → Option String

/-- A yard-plan table: its column names and its rows, in order. -/
structure YardTable where
  cols : List String
  rows : List YardRow

/-- Parsed hour of a row's `Time` cell. -/
def rowHour (r : YardRow) : Option Nat :=
  parseTimeOpt (r.cells "Time")

/-! ## Earliest-Pull-Time Finder: `find_earliest_pull_time`
(src/main.py lines 63-95) -/

/-- Columns whose name starts with `Pull`. -/
def pullColsOf (cols : List String) : List String :=
  cols.filter (fun c => strStarts c "Pull")

/-- The earliest-hour update at one match: keep the current hour unless
the midnight-crossing branch (`hour == 23 and earliest_hour < 2`) or the
plain-comparison branch
(`hour < earliest_hour and not (earliest_hour == 23 and hour < 2)`) fires. -/
def updEarliest (cur : Option Nat) (h : Nat) : Option Nat :=
  match cur with
  | none => some h
  | some e =>
    if h = 23 ∧ e < 2 then some 23
    else if h < e ∧ ¬(e = 23 ∧ h < 2) then some h
    else some e

/-- Scan of one row's pull columns: a cell containing the train name as a
substring contributes the row's parsed hour (if any) to the update. -/
def scanRowPulls (train : String) (pulls : List String) (r : YardRow)
    (cur : Option Nat) : Option Nat :=
  pulls.foldl (fun acc c =>
    match r.cells c with
    | none => acc
    | some s =>
      if strContains s train then
        match rowHour r with
        | none => acc
        | some h => updEarliest acc h
      else acc) cur

/-- `find_earliest_pull_time` (the hour component). -/
def findEarliestPull (t : YardTable) (train : String) : Option Nat :=
  t.rows.foldl (fun acc r => scanRowPulls train (pullColsOf t.cols) r acc) none

/-! ## Direct block-column cell parsing (src/main.py lines 124-128)

`if pd.notna(val) and str(val).replace('.', '').replace('-', '').isdigit():
     count += int(float(val))`

The guard admits any string whose non-dot, non-dash characters are digits
(nonempty after removal); `float` then accepts only an optional leading
minus and at most one dot, and raises `ValueError` otherwise, e.g. on
`"1.2.3"`.  `int(float(s))` truncates toward zero, so the value is the
signed integer part as written (exact-decimal model).
-/

/-- The guard `str(val).replace('.', '').replace('-', '').isdigit()`. -/
def passesNumGuard (s : String) : Bool :=
  let kept := s.data.filter (fun c => !(c == '.' || c == '-'))
  !kept.isEmpty && kept.all Char.isDigit

/-- `int(float(s))` for a guard-passing string; `.error ()` is the
`ValueError` that `float` raises on malformed text such as `"1.2.3"`. -/
def pyIntFloat (s : String) : Except Unit Int :=
  let body := match s.data with
    | '-' :: rest => rest
    | cs => cs
  let neg : Bool := match s.data with
    | '-' :: _ => true
    | _ => false
  let ip := body.takeWhile Char.isDigit
  let sz : Int := if neg then -(natOfDigits ip : Int) else (natOfDigits ip : Int)
  match body.dropWhile Char.isDigit with
  | [] => if ip.isEmpty then .error () else .ok sz
  | '.' :: fp =>
    if fp.all Char.isDigit && (!ip.isEmpty || !fp.isEmpty) then .ok sz
    else .error ()
  | _ => .error ()

/-- Contribution of one direct block-column cell to the row count. -/
def directContrib (cell : Option String) : Except Unit Int :=
  match cell with
  | none => .ok 0
  | some s => if passesNumGuard s then pyIntFloat s else .ok 0

/-! ## Hourly Arrival Aggregator: `calculate_car_arriving`
(src/main.py lines 98-144) -/

/-- Direct block columns: not a `SPARE` column and named by a target
block (the `elif col in blocks` branch, src/main.py lines 109-113). -/
def blockColsOf (cols blocks : List String) : List String :=
  cols.filter (fun c => !(strStarts c "SPARE") && blocks.contains c)

/-- Spare columns: name starts with `SPARE`. -/
def spareColsOf (cols : List String) : List String :=
  cols.filter (fun c => strStarts c "SPARE")

/-- Total of the direct block-column cells of one row; the first
malformed-but-guard-passing cell raises. -/
def directTotal (blockCols : List String) (r : YardRow) : Except Unit Int :=
  match blockCols with
  | [] => .ok 0
  | c :: cs =>
    match directContrib (r.cells c) with
    | .error e => .error e
    | .ok v =>
      match directTotal cs r with
      | .error e => .error e
      | .ok rest => .ok (v + rest)

/-- Total of the spare-cell contributions of one row (never raises). -/
def spareTotal (spareCols blocks : List String) (r : YardRow) : Nat :=
  (spareCols.map (fun c => spareCount blocks (r.cells c))).sum

/-- Per-row `count` of `calculate_car_arriving` (lines 122-137). -/
def rowCount (blockCols spareCols blocks : List String) (r : YardRow) :
    Except Unit Int :=
  match directTotal blockCols r with
  | .error e => .error e
  | .ok d => .ok (d + (spareTotal spareCols blocks r : Int))

/-- `rowCount` with a malformed row read as 0 (used to state results
about runs in which no exception occurred). -/
def rowCountD (blockCols spareCols blocks : List String) (r : YardRow) : Int :=
  match rowCount blockCols spareCols blocks r with
  | .error _ => 0
  | .ok c => c

/-- The row loop of `calculate_car_arriving` (lines 116-141) over an
accumulator: rows with unparsable hours or the excluded hour are skipped;
otherwise `hourly_counts[hour] += max(0, count)`.  A parsed hour outside
0-23 is a `KeyError` on the 24-key dict, modelled as `.error ()`.  The
returned flag records whether any row reached the body of the loop
(i.e. whether the local variable `count` was ever assigned). -/
def calcGo (blockCols spareCols blocks : List String) (excl : Nat) :
    List YardRow → (Nat → Int) → Bool → Except Unit ((Nat → Int) × Bool)
  | [], acc, touched => .ok (acc, touched)
  | r :: rs, acc, touched =>
    match rowHour r with
    | none => calcGo blockCols spareCols blocks excl rs acc touched
    | some h =>
      if h = excl then calcGo blockCols spareCols blocks excl rs acc touched
      else
        match rowCount blockCols spareCols blocks r with
        | .error e => .error e
        | .ok c =>
          if h < 24 then
            calcGo blockCols spareCols blocks excl rs
              (fun x => if x = h then acc x + max 0 c else acc x) true
          else .error ()

/-- `calculate_car_arriving(yard_plan, blocks, earliest_hour)`.  After
the loop, line 143 runs `print(f"count: {count}; ...")` at function
level; when no row was processed (every row unparsable or at the
excluded hour, or no rows at all) the local `count` was never assigned
and this raises `UnboundLocalError`, modelled as `.error ()`. -/
def calcCarArriving (t : YardTable) (blocks : List String) (excl : Nat) :
    Except Unit (Nat → Int) :=
  match calcGo (blockColsOf t.cols blocks) (spareColsOf t.cols) blocks excl
      t.rows (fun _ => 0) false with
  | .error e => .error e
  | .ok (acc, touched) => if touched then .ok acc else .error ()

/-! ## Car-Hours Recurrence Engine: `create_train_dataframe`
(src/main.py lines 147-186; the identical recurrence is at
src/data.py lines 86-132)

The dataframe columns become functions of the hourly arrival series
`a : Nat → Int` (slots 0-23): `DWELL_HOURS` is `24 - h`,
`CAR_ARRIVING_X_DWELL` is `a h * (24 - h)`, and `CAR_HOURS` is filled
backwards from hour 23.  `carHoursK a k` is the `CAR_HOURS` value at
hour `23 - k`, following the loop from `i = 23` down to `i = 0`.
-/

/-- `total_car = df['CAR_ARRIVING'].sum()`. -/
def totalCar (a : Nat → Int) : Int :=
  ((List.range 24).map a).sum

/-- `total_car_hours = df['CAR_ARRIVING_X_DWELL'].sum()`. -/
def totalCarHours (a : Nat → Int) : Int :=
  ((List.range 24).map (fun h => a h * (24 - (h : Int)))).sum

/-- Backward fill of `CAR_HOURS`, indexed by steps below hour 23. -/
def carHoursK (a : Nat → Int) : Nat → Int
  | 0 => totalCarHours a - totalCar a + 24 * a 23
  | k + 1 => carHoursK a k - totalCar a + 24 * a (23 - (k + 1))

/-- `CAR_HOURS` at hour `h` (src/main.py lines 168-179). -/
def carHours (a : Nat → Int) (h : Nat) : Int :=
  carHoursK a (23 - h)

/-! ## Summary Extractor (src/main.py lines 232-238) -/

/-- `avg_car_hours = total_car_hours / total_car if total_car > 0 else 0`
(true division; the code later rounds the emitted copy to 2 decimals,
a display detail not modelled). -/
def avgCarHours (a : Nat → Int) : Rat :=
  if 0 < totalCar a then (totalCarHours a : Rat) / (totalCar a : Rat) else 0

/-- `train_df['CAR_HOURS'].idxmin()`: index of the minimal `CAR_HOURS`
value over hours 0-23, first occurrence on ties (df row index = hour). -/
def minIdx (a : Nat → Int) : Nat :=
  (List.range 24).foldl
    (fun best h => if carHours a h < carHours a best then h else best) 0

/-! ## Batch loop: `main` (src/main.py lines 189-273)

Per departure row: parse the block list (skip the train if empty), find
the earliest pull hour (skip if none), aggregate arrivals excluding that
hour (an exception there aborts the batch), run the recurrence and
extract one summary record.
-/

/-- One departure-table row (`Train`, `Bocks`; the departure time is
carried through unchanged and omitted here). -/
structure DepRow where
  train : String
  blocksStr : Option String

/-- One per-train summary record (`summary_data.append(...)`,
src/main.py lines 240-248). -/
structure TrainSummary where
  train : String
  total_car : Int
  total_car_hours : Int
  avg_car_hours : Rat
  min_car_hours : Int
  min_car_hours_hour : Nat
deriving DecidableEq

/-- Assemble the summary record for one processed train. -/
def mkSummary (train : String) (a : Nat → Int) : TrainSummary :=
  { train := train
    total_car := totalCar a
    total_car_hours := totalCarHours a
    avg_car_hours := avgCarHours a
    min_car_hours := carHours a (minIdx a)
    min_car_hours_hour := minIdx a }

/-- The per-train loop of `main`, producing the ordered summary list. -/
def runBatch (t : YardTable) : List DepRow → Except Unit (List TrainSummary)
  | [] => .ok []
  | d :: ds =>
    let blocks := getBlocksFromDeparture d.blocksStr
    if blocks.isEmpty then runBatch t ds
    else
      match findEarliestPull t d.train with
      | none => runBatch t ds
      | some eh =>
        match calcCarArriving t blocks eh with
        | .error e => .error e
        | .ok counts =>
          match runBatch t ds with
          | .error e => .error e
          | .ok rest => .ok (mkSummary d.train counts :: rest)

/-! ## The two recurrence copies, embedded separately (for comparing
src/main.py `create_train_dataframe` with src/data.py
`create_train_dataframe`)

src/main.py lines 168-179:
  hour 23: `total_car_hours - total_car + 24 * car_arriving`
  else   : `prev_car_hours - total_car + 24 * car_arriving`
src/data.py lines 113-124:
  hour 23: `total_car_hours - total_car + 24 * car_arriving`
  else   : `next_car_hours - total_car + 24 * car_arriving`
Both files compute `total_car`, `total_car_hours` and `DWELL_HOURS`
identically (main.py lines 161-164, data.py lines 100-107).
-/

/-- Backward fill of src/main.py's recurrence, steps below hour 23. -/
def carHoursMainK (a : Nat → Int) : Nat → Int
  | 0 => totalCarHours a - totalCar a + 24 * a 23
  | k + 1 => carHoursMainK a k - totalCar a + 24 * a (23 - (k + 1))

/-- src/main.py `CAR_HOURS` at hour `h`. -/
def carHoursMain (a : Nat → Int) (h : Nat) : Int :=
  carHoursMainK a (23 - h)

/-- Backward fill of src/data.py's recurrence, steps below hour 23. -/
def carHoursDataK (a : Nat → Int) : Nat → Int
  | 0 => totalCarHours a - totalCar a + 24 * a 23
  | k + 1 => carHoursDataK a k - totalCar a + 24 * a (23 - (k + 1))

/-- src/data.py `CAR_HOURS` at hour `h`. -/
def carHoursData (a : Nat → Int) (h : Nat) : Int :=
  carHoursDataK a (23 - h)

/-! ## Concrete inputs used by examples, counterexamples and bug
demonstrations -/

/-- A row from an association list of (column, cell text) pairs. -/
def mkRow (ps : List (String × String)) : YardRow :=
  ⟨fun c => (ps.find? (fun p => p.1 = c)).map Prod.snd⟩

/-- The example arrival series of §8: all 10 cars arrive at hour 23. -/
def exLate (h : Nat) : Int :=
  if h = 23 then 10 else 0

/-- Yard plan whose pull matches for train `T9` occur at parsed hours
22, 23, 0, 1 in that row order. -/
def tblWrap : YardTable :=
  { cols := ["Time", "Pull 1"]
    rows := [mkRow [("Time", "22:00"), ("Pull 1", "T9")],
             mkRow [("Time", "23:00"), ("Pull 1", "T9")],
             mkRow [("Time", "0:00"), ("Pull 1", "T9")],
             mkRow [("Time", "1:00"), ("Pull 1", "T9")]] }

/-- Yard plan with a direct block cell `"1.2.3"`: it passes the numeric
guard but `float` raises on it. -/
def tblBadCell : YardTable :=
  { cols := ["Time", "CHBR"]
    rows := [mkRow [("Time", "3:00"), ("CHBR", "1.2.3")]] }

/-- Yard plan with time text `"25:00"`: parsed hour 25 is out of range
and its slot write is a `KeyError`. -/
def tblHour25 : YardTable :=
  { cols := ["Time", "CHBR"]
    rows := [mkRow [("Time", "25:00"), ("CHBR", "1")]] }

/-- Yard plan whose only row for train `T1` sits at the clearing hour:
the pull match is at hour 5 and the same row is the only arrival row. -/
def tblOnlyExcluded : YardTable :=
  { cols := ["Time", "Pull 1", "CHBR"]
    rows := [mkRow [("Time", "5:00"), ("Pull 1", "T1"), ("CHBR", "4")]] }

/-- One-train departure table for `tblOnlyExcluded`. -/
def depsOnlyExcluded : List DepRow :=
  [⟨"T1", some "CHBR"⟩]

/-- A small well-formed yard plan: one arrival row at hour 3 with a
direct `CHBR` count of 2 and a spare cell worth 1 more. -/
def tblSmall : YardTable :=
  { cols := ["Time", "CHBR", "SPARE 1", "Pull 1"]
    rows := [mkRow [("Time", "3:00"), ("CHBR", "2"), ("SPARE 1", "1 CHBR")],
             mkRow [("Time", "oops"), ("CHBR", "9")],
             mkRow [("Time", "5:00"), ("CHBR", "7"), ("Pull 1", "T1")]] }

/-! ## Shared lemmas about the recurrence engine -/

/-- Base case of the backward recurrence at hour 23. -/
theorem carHours_base (a : Nat → Int) :
    carHours a 23 = totalCarHours a - totalCar a + 24 * a 23 := rfl

/-- Step case of the backward recurrence below hour 23. -/
theorem carHours_step (a : Nat → Int) (h : Nat) (hh : h < 23) :
    carHours a h = carHours a (h + 1) - totalCar a + 24 * a h := by
  show carHoursK a (23 - h) = carHoursK a (23 - (h + 1)) - totalCar a + 24 * a h
  have h1 : 23 - h = (23 - (h + 1)) + 1 := by omega
  rw [h1, carHoursK]
  have h2 : 23 - ((23 - (h + 1)) + 1) = h := by omega
  rw [h2]

/-- The two embedded recurrence copies agree step by step. -/
theorem carHoursMainK_eq_dataK (a : Nat → Int) (k : Nat) :
    carHoursMainK a k = carHoursDataK a k := by
  induction k with
  | zero => rfl
  | succ k ih => rw [carHoursMainK, carHoursDataK, ih]


/-! ## Claims -/

/-- C1: for every 24-slot hourly arrival series of non-negative integers,
the Car-Hours Recurrence Engine produces a series satisfying
`car_hours[23] = total_car_hours - total_car + 24 * arrivals[23]` and
`car_hours[h] = car_hours[h+1] - total_car + 24 * arrivals[h]` for
`h < 23`; in particular, for arrivals `[0]*23 + [10]`: `total_car = 10`,
`total_car_hours = 10`, `car_hours[23] = 240`, the values decrease by 10
per hour, and `car_hours[0] = 10`. -/
theorem C1_carHours_recurrence (a : Nat → Int) (hnn : ∀ h, 0 ≤ a h) :
    carHours a 23 = totalCarHours a - totalCar a + 24 * a 23 ∧
    (∀ h, h < 23 → carHours a h = carHours a (h + 1) - totalCar a + 24 * a h) ∧
    totalCar exLate = 10 ∧ totalCarHours exLate = 10 ∧
    carHours exLate 23 = 240 ∧
    (∀ h, h < 23 → carHours exLate h = carHours exLate (h + 1) - 10) ∧
    carHours exLate 0 = 10 :=
  ⟨carHours_base a, carHours_step a, by decide, by decide, by decide,
   by decide, by decide⟩

/-- Witness for C1 at the §8 example series and hour 22. -/
theorem C1_witness :
    carHours exLate 22 = carHours exLate 23 - totalCar exLate + 24 * exLate 22 :=
  (C1_carHours_recurrence exLate (fun h => by unfold exLate; split <;> decide)).2.1
    22 (by decide)

/-- C7: the round-trip law — recomputing
`arrivals[23] = (car_hours[23] - total_car_hours + total_car) / 24` and
`arrivals[h] = (car_hours[h] - car_hours[h+1] + total_car) / 24` for
`h < 23` from the engine's output reproduces every input arrival value
exactly. -/
theorem C7_roundtrip (a : Nat → Int) (hnn : ∀ h, 0 ≤ a h) :
    (carHours a 23 - totalCarHours a + totalCar a) / 24 = a 23 ∧
    ∀ h, h < 23 → (carHours a h - carHours a (h + 1) + totalCar a) / 24 = a h := by
  constructor
  · have hb : carHours a 23 - totalCarHours a + totalCar a = 24 * a 23 := by
      rw [carHours_base a]; ring
    rw [hb]
    exact Int.mul_ediv_cancel_left _ (by norm_num)
  · intro h hh
    have hs : carHours a h - carHours a (h + 1) + totalCar a = 24 * a h := by
      rw [carHours_step a h hh]; ring
    rw [hs]
    exact Int.mul_ediv_cancel_left _ (by norm_num)

/-- Witness for C7 at the §8 example series and hour 21. -/
theorem C7_witness :
    (carHours exLate 21 - carHours exLate 22 + totalCar exLate) / 24 = exLate 21 :=
  (C7_roundtrip exLate (fun h => by unfold exLate; split <;> decide)).2 21 (by decide)

/-- C9 counterexample: the claim that the two `create_train_dataframe`
recurrences differ on some arrival series is false — no series and hour
distinguish src/main.py's recurrence from src/data.py's. -/
theorem C9_counterexample :
    ¬ ∃ (a : Nat → Int) (h : Nat), h ≤ 23 ∧ carHoursMain a h ≠ carHoursData a h := by
  rintro ⟨a, h, -, hne⟩
  exact hne (carHoursMainK_eq_dataK a (23 - h))

/-- C9 (amended): the two duplicate implementations compute the backward
recurrence with the same operators; on every 24-slot arrival series they
produce identical car-hours values at every hour. -/
theorem C9_amended (a : Nat → Int) (h : Nat) :
    carHoursMain a h = carHoursData a h :=
  carHoursMainK_eq_dataK a (23 - h)

/-- C2: the Block/Spare Resolver parses a spare cell left-to-right — an
integer token binds to the immediately following token as its block code,
a lone trailing integer is discarded, a non-integer-start token is
skipped, and repeated block codes accumulate; only target block codes
contribute to the count, so `"2 CHBR 1 CHG"` yields 2 for targets
`{CHBR}` and 3 for `{CHBR, CHG}`, and `"CHBR 2"` yields 0 for `CHBR`. -/
theorem C2_spare_resolver :
    (∀ t b rest m, isDigitStr t = true →
      parseSpareGo (t :: b :: rest) m = parseSpareGo rest (bumpCount m b (strToNat t))) ∧
    (∀ t m, isDigitStr t = true → parseSpareGo [t] m = m) ∧
    (∀ t rest m, isDigitStr t = false → parseSpareGo (t :: rest) m = parseSpareGo rest m) ∧
    (∀ m b c k, bumpCount m b c b = m b + c ∧ (k ≠ b → bumpCount m b c k = m k)) ∧
    spareCount ["CHBR"] (some "2 CHBR 1 CHG") = 2 ∧
    spareCount ["CHBR", "CHG"] (some "2 CHBR 1 CHG") = 3 ∧
    spareCount ["CHBR"] (some "CHBR 2") = 0 := by
  refine ⟨?_, ?_, ?_, ?_, by decide, by decide, by decide⟩
  · intro t b rest m ht
    rw [parseSpareGo.eq_def]
    simp [ht]
  · intro t m ht
    rw [parseSpareGo.eq_def]
    simp [ht]
  · intro t rest m ht
    rw [parseSpareGo.eq_def]
    simp [ht]
  · intro m b c k
    constructor
    · simp [bumpCount]
    · intro hk
      simp [bumpCount, hk]

/-- Witness for C2: one digit-block pair consumed at the head. -/
theorem C2_witness :
    parseSpareGo ["2", "CHBR"] (fun _ => 0) =
      parseSpareGo [] (bumpCount (fun _ => 0) "CHBR" (strToNat "2")) :=
  C2_spare_resolver.1 "2" "CHBR" [] (fun _ => 0) (by decide)

/-- C3: the claim that pull matches at hours exactly {22, 23, 0, 1}
resolve to 23 regardless of row order is violated by the code: with the
rows ordered 22, 23, 0, 1 the finder returns hour 0 (the 23 seen while
the current earliest is 22 is not anchored, and 0 then replaces 22),
contradicting the code's own midnight-crossing comments. -/
theorem C3_wraparound_bug :
    findEarliestPull tblWrap "T9" = some 0 ∧ some 0 ≠ some 23 :=
  ⟨by decide, by decide⟩

/-- C5: resolution can raise — the direct-cell text `"1.2.3"` passes the
numeric guard `str(val).replace('.', '').replace('-', '').isdigit()` but
`float` raises `ValueError` on it, so `calculate_car_arriving` aborts
instead of treating the malformed cell as 0. -/
theorem C5_malformed_cell_raises :
    passesNumGuard "1.2.3" = true ∧
    pyIntFloat "1.2.3" = .error () ∧
    calcCarArriving tblBadCell ["CHBR"] 5 = .error () :=
  ⟨by decide, rfl, rfl⟩

/-- C6: the parsed time-slot hour is not always in {0,…,23} — the text
`"25:00"` parses to hour 25 (the code has no range check, contradicting
its own docstring), and the aggregator's slot write at hour 25 is a
`KeyError` on the 24-key dict. -/
theorem C6_hour_out_of_range :
    parseTimeStr "25:00" = some 25 ∧
    ¬ (25 < 24) ∧
    calcCarArriving tblHour25 ["CHBR"] 5 = .error () :=
  ⟨by decide, by decide, rfl⟩

/-- Specification of the first-occurrence argmin fold used by `idxmin`:
over `List.range k` (k > 0) it returns an index below `k` whose value is
minimal, and every earlier index has a strictly larger value. -/
theorem foldlMinSpec (g : Nat → Int) :
    ∀ k, 0 < k →
      ((List.range k).foldl (fun best h => if g h < g best then h else best) 0) < k ∧
      (∀ h, h < k →
        g ((List.range k).foldl (fun best h => if g h < g best then h else best) 0) ≤ g h) ∧
      (∀ h, h < (List.range k).foldl (fun best h => if g h < g best then h else best) 0 →
        g ((List.range k).foldl (fun best h => if g h < g best then h else best) 0) < g h) := by
  intro k
  induction k with
  | zero => omega
  | succ k ih =>
    intro _
    rw [List.range_succ, List.foldl_append, List.foldl_cons, List.foldl_nil]
    rcases Nat.eq_zero_or_pos k with hk | hk
    · subst hk
      simp
    · obtain ⟨h1, h2, h3⟩ := ih hk
      by_cases hc :
          g k < g ((List.range k).foldl (fun best h => if g h < g best then h else best) 0)
      · rw [if_pos hc]
        refine ⟨by omega, ?_, ?_⟩
        · intro h hh
          rcases Nat.lt_succ_iff_lt_or_eq.mp hh with hh' | hh'
          · exact le_of_lt (lt_of_lt_of_le hc (h2 h hh'))
          · exact le_of_eq (congrArg g hh'.symm)
        · intro h hh
          exact lt_of_lt_of_le hc (h2 h hh)
      · rw [if_neg hc]
        refine ⟨by omega, ?_, h3⟩
        intro h hh
        rcases Nat.lt_succ_iff_lt_or_eq.mp hh with hh' | hh'
        · exact h2 h hh'
        · subst hh'
          exact le_of_not_lt hc

/-- C10: the Summary Extractor computes
`avg_car_hours = total_car_hours / total_car`, defined as 0 when
`total_car` is 0, and the minimum of the 24 car-hours slots together
with its hour, ties broken by the first (lowest-indexed) hour. -/
theorem C10_summary (a : Nat → Int) (hnn : ∀ h, 0 ≤ a h) :
    (totalCar a = 0 → avgCarHours a = 0) ∧
    (totalCar a ≠ 0 →
      avgCarHours a = (totalCarHours a : Rat) / (totalCar a : Rat)) ∧
    minIdx a < 24 ∧
    (∀ h, h < 24 → carHours a (minIdx a) ≤ carHours a h) ∧
    (∀ h, h < minIdx a → carHours a (minIdx a) < carHours a h) := by
  obtain ⟨h1, h2, h3⟩ := foldlMinSpec (carHours a) 24 (by norm_num)
  refine ⟨?_, ?_, h1, h2, h3⟩
  · intro h0
    rw [avgCarHours, if_neg]
    omega
  · intro hne
    have hge : 0 ≤ totalCar a := by
      apply List.sum_nonneg
      intro x hx
      obtain ⟨h, -, rfl⟩ := List.mem_map.mp hx
      exact hnn h
    rw [avgCarHours, if_pos (by omega)]

/-- Witness for C10 at the §8 example series: the average is the
quotient and the argmin properties hold at hour 0. -/
theorem C10_witness :
    avgCarHours exLate = (totalCarHours exLate : Rat) / (totalCar exLate : Rat) :=
  (C10_summary exLate (fun h => by unfold exLate; split <;> decide)).2.1 (by decide)

/-- In a run of the row loop that returns normally, a slot other than
the excluded hour holds the accumulator plus the floored per-row counts
of exactly the rows parsed to that hour. -/
theorem calcGo_ok (bc sc blocks : List String) (excl : Nat) :
    ∀ (rows : List YardRow) (acc f : Nat → Int) (tch fl : Bool),
      calcGo bc sc blocks excl rows acc tch = .ok (f, fl) →
      ∀ h, h ≠ excl →
        f h = acc h + ((rows.filter (fun r => rowHour r == some h)).map
          (fun r => max 0 (rowCountD bc sc blocks r))).sum := by
  intro rows
  induction rows with
  | nil =>
    intro acc f tch fl hok h hne
    simp only [calcGo, Except.ok.injEq, Prod.mk.injEq] at hok
    obtain ⟨h1, -⟩ := hok
    subst h1
    simp
  | cons r rs ih =>
    intro acc f tch fl hok h hne
    rw [calcGo] at hok
    cases hr : rowHour r with
    | none =>
      rw [hr] at hok
      rw [List.filter_cons_of_neg (by simp [hr])]
      exact ih acc f tch fl hok h hne
    | some h' =>
      rw [hr] at hok
      dsimp only at hok
      by_cases he : h' = excl
      · rw [if_pos he] at hok
        have hno : h' ≠ h := by omega
        rw [List.filter_cons_of_neg (by simp [hr, hno])]
        exact ih acc f tch fl hok h hne
      · rw [if_neg he] at hok
        cases hc : rowCount bc sc blocks r with
        | error e =>
          rw [hc] at hok
          simp at hok
        | ok c =>
          rw [hc] at hok
          simp only at hok
          by_cases h24 : h' < 24
          · rw [if_pos h24] at hok
            have hrec := ih _ f true fl hok h hne
            have hD : rowCountD bc sc blocks r = c := by
              rw [rowCountD, hc]
            by_cases hhh : h' = h
            · subst hhh
              rw [List.filter_cons_of_pos (by simp [hr])]
              rw [hrec]
              simp only [if_pos rfl, if_true, hD, List.map_cons, List.sum_cons]
              rw [add_assoc]
            · rw [List.filter_cons_of_neg (by simp [hr, hhh])]
              rw [hrec]
              simp [hhh]
              intro hcontra
              omega
          · rw [if_neg h24] at hok
            simp at hok

/-- In a run of the row loop that returns normally, the excluded hour's
slot never changes. -/
theorem calcGo_ok_excl (bc sc blocks : List String) (excl : Nat) :
    ∀ (rows : List YardRow) (acc f : Nat → Int) (tch fl : Bool),
      calcGo bc sc blocks excl rows acc tch = .ok (f, fl) → f excl = acc excl := by
  intro rows
  induction rows with
  | nil =>
    intro acc f tch fl hok
    simp only [calcGo, Except.ok.injEq, Prod.mk.injEq] at hok
    obtain ⟨h1, -⟩ := hok
    subst h1
    rfl
  | cons r rs ih =>
    intro acc f tch fl hok
    rw [calcGo] at hok
    cases hr : rowHour r with
    | none =>
      rw [hr] at hok
      exact ih acc f tch fl hok
    | some h' =>
      rw [hr] at hok
      dsimp only at hok
      by_cases he : h' = excl
      · rw [if_pos he] at hok
        exact ih acc f tch fl hok
      · rw [if_neg he] at hok
        cases hc : rowCount bc sc blocks r with
        | error e =>
          rw [hc] at hok
          simp at hok
        | ok c =>
          rw [hc] at hok
          simp only at hok
          by_cases h24 : h' < 24
          · rw [if_pos h24] at hok
            have := ih _ f true fl hok
            rw [this]
            simp
            intro hcontra
            omega
          · rw [if_neg h24] at hok
            simp at hok

/-- C4: in any run of the Hourly Arrival Aggregator that returns
normally, every slot starts at 0 and every yard-plan row whose parsed
hour is defined and differs from the excluded (clearing) hour adds
exactly its per-row count (direct plus spare contributions, floored at 0
per row) to its hour's slot; unparsable-hour rows and excluded-hour rows
contribute nothing. -/
theorem C4_aggregator (t : YardTable) (blocks : List String) (excl : Nat)
    (f : Nat → Int) (hok : calcCarArriving t blocks excl = .ok f)
    (h : Nat) (hlt : h < 24) :
    f h = if h = excl then 0
      else ((t.rows.filter (fun r => rowHour r == some h)).map
        (fun r => max 0 (rowCountD (blockColsOf t.cols blocks)
          (spareColsOf t.cols) blocks r))).sum := by
  rw [calcCarArriving] at hok
  cases hgo : calcGo (blockColsOf t.cols blocks) (spareColsOf t.cols) blocks excl
      t.rows (fun _ => 0) false with
  | error e =>
    rw [hgo] at hok
    simp at hok
  | ok p =>
    obtain ⟨g, tch⟩ := p
    rw [hgo] at hok
    dsimp only at hok
    cases tch with
    | false => simp at hok
    | true =>
      simp only [if_pos, Except.ok.injEq] at hok
      subst hok
      by_cases he : h = excl
      · rw [if_pos he, he]
        exact calcGo_ok_excl (blockColsOf t.cols blocks) (spareColsOf t.cols)
          blocks excl t.rows (fun _ => 0) g false true hgo
      · rw [if_neg he]
        have hmain := calcGo_ok (blockColsOf t.cols blocks) (spareColsOf t.cols)
          blocks excl t.rows (fun _ => 0) g false true hgo h he
        simpa using hmain

/-- Witness for C4 on a small yard plan: hour 3 receives 2 direct cars
plus 1 spare car; the unparsable row and the excluded row add nothing. -/
theorem C4_witness :
    (fun x : Nat => if x = 3 then (3 : Int) else 0) 3 =
      if (3 : Nat) = 5 then 0
      else ((tblSmall.rows.filter (fun r => rowHour r == some 3)).map
        (fun r => max 0 (rowCountD (blockColsOf tblSmall.cols ["CHBR"])
          (spareColsOf tblSmall.cols) ["CHBR"] r))).sum :=
  C4_aggregator tblSmall ["CHBR"] 5
    (fun x : Nat => if x = 3 then (3 : Int) else 0) rfl 3 (by decide)

/-- C8: the claim is right — a matched train with no valid (parsable,
non-excluded) arrival hour should contribute zero TrainSummary entries
while the batch continues — and the code is wrong: with every yard row
skipped, `calculate_car_arriving` never assigns the loop-local `count`,
so the function-level debug print at src/main.py line 143 raises
`UnboundLocalError` and the whole batch aborts with no output.  Here the
pull match is at hour 5 and the only row sits at that clearing hour. -/
theorem C8_no_valid_hour_crash :
    findEarliestPull tblOnlyExcluded "T1" = some 5 ∧
    tblOnlyExcluded.rows.all
      (fun r => !(rowHour r).isSome || rowHour r == some 5) = true ∧
    calcCarArriving tblOnlyExcluded ["CHBR"] 5 = .error () ∧
    runBatch tblOnlyExcluded depsOnlyExcluded = .error () :=
  ⟨by decide, by decide, rfl, rfl⟩
